import Mathlib

/-!
Verification of `diff` (github.com/samiksome92/diff), a small Go program that
compares two files byte for byte or reconciles the listings of two
directories.  The definitions below are a shallow embedding of `diff.go`:

* file contents are byte sequences, modelled as `List Nat`;
* `cmpFiles` is the chunked read-and-compare loop, with the two reusable
  4096-byte chunk buffers carried as explicit state (a `Read` call fills the
  prefix of the buffer and leaves the bytes past the number of bytes read
  unchanged);
* `diffDirs` is the two-pass reconciliation of two directory listings;
* `mainLogic` is the argument handling of `main`.
-/

namespace Diff

/-- Number of bytes to read at once from a file (`CHUNK_SIZE = 4 * 1024`). -/
def CHUNK_SIZE : Nat := 4 * 1024

/-- Effect of `f.Read(b)` on the buffer `buf` when the chunk `c` was read:
the bytes read are written to the front of the buffer and the stale bytes
past index `c.length` are left unchanged. -/
def storeChunk (buf c : List Nat) : List Nat :=
  c ++ buf.drop c.length

/-- The verdict of one iteration of the read loop of `cmpFiles`
(`diff.go` lines 87-100), given the buffer states `b1`, `b2` before the two
`Read` calls and the chunks `c1`, `c2` those calls returned: if the byte
counts differ the iteration decides "different" (`false`); otherwise
`bytes.Equal(b1, b2)` compares the two FULL buffers — the reslicing
`b1 = b1[:CHUNK_SIZE]` in the source is a no-op, so the stale bytes past the
read prefix do participate in the comparison.  `true` means the iteration
found no difference and the loop continues. -/
def cmpStep (b1 b2 c1 c2 : List Nat) : Bool :=
  if c1.length ≠ c2.length then false
  else decide (storeChunk b1 c1 = storeChunk b2 c2)

/-- The read-and-compare loop of `cmpFiles` (`diff.go` lines 70-101).
`rem1`, `rem2` are the not-yet-read suffixes of the two files; a `Read` on an
exhausted stream returns `(0, io.EOF)`, which is the `rem = []` case, and a
`Read` on a non-empty stream returns the next `min CHUNK_SIZE remaining`
bytes, which for a regular file is `rem.take CHUNK_SIZE`.  Both streams at
EOF means equal; one stream at EOF means different; otherwise the iteration
verdict `cmpStep` either stops the loop with "different" or the loop
continues on the rest of the streams with the updated buffers. -/
def cmpLoop (b1 b2 rem1 rem2 : List Nat) : Bool :=
  if h1 : rem1 = [] then decide (rem2 = [])
  else if h2 : rem2 = [] then false
  else if cmpStep b1 b2 (rem1.take CHUNK_SIZE) (rem2.take CHUNK_SIZE) then
    cmpLoop (storeChunk b1 (rem1.take CHUNK_SIZE)) (storeChunk b2 (rem2.take CHUNK_SIZE))
      (rem1.drop CHUNK_SIZE) (rem2.drop CHUNK_SIZE)
  else false
termination_by rem1.length
decreasing_by
  have hpos : 0 < rem1.length := List.length_pos.mpr h1
  simp only [List.length_drop, CHUNK_SIZE]
  omega

/-- `cmpFiles` (`diff.go` lines 48-102) on the contents of the two files:
if `Stat` reports different sizes the files cannot be equal and no content is
read; otherwise the loop runs with two freshly allocated (hence zero-filled)
buffers of `CHUNK_SIZE` bytes. -/
def cmpFiles (file1 file2 : List Nat) : Bool :=
  if file1.length ≠ file2.length then false
  else cmpLoop (List.replicate CHUNK_SIZE 0) (List.replicate CHUNK_SIZE 0) file1 file2

/-- The same loop instrumented with a count of the `Read` calls issued so far
on each file: every iteration of the loop, including the one that detects
EOF, performs exactly one `Read` per file. -/
def cmpLoopReads (b1 b2 rem1 rem2 : List Nat) (k : Nat) : Bool × Nat :=
  if h1 : rem1 = [] then (decide (rem2 = []), k + 1)
  else if h2 : rem2 = [] then (false, k + 1)
  else if cmpStep b1 b2 (rem1.take CHUNK_SIZE) (rem2.take CHUNK_SIZE) then
    cmpLoopReads (storeChunk b1 (rem1.take CHUNK_SIZE)) (storeChunk b2 (rem2.take CHUNK_SIZE))
      (rem1.drop CHUNK_SIZE) (rem2.drop CHUNK_SIZE) (k + 1)
  else (false, k + 1)
termination_by rem1.length
decreasing_by
  have hpos : 0 < rem1.length := List.length_pos.mpr h1
  simp only [List.length_drop, CHUNK_SIZE]
  omega

/-- `cmpFiles` instrumented with the number of `Read` calls issued per file:
`(verdict, number of Read calls made on each file)`.  A size mismatch from
`Stat` returns before the loop starts, with zero reads. -/
def cmpFilesReads (file1 file2 : List Nat) : Bool × Nat :=
  if file1.length ≠ file2.length then (false, 0)
  else cmpLoopReads (List.replicate CHUNK_SIZE 0) (List.replicate CHUNK_SIZE 0) file1 file2 0

/-- One entry of a directory listing as returned by `os.ReadDir`: its base
name and whether it is a directory. -/
structure DirEntry where
  name : String
  isDir : Bool
deriving DecidableEq

/-- One unit of output of the directory reconciliation.  The first four
constructors correspond to the four branches taken for a name present in both
listings (`diff.go` lines 142-159); the `name` field records the matched
entry name, the `path` fields the two joined paths that appear in the
output.  `compareFiles` and `recurseDirs` record the goroutines spawned
(`go diffFiles` / `go diffDirs`); `commonSubdirs` and `typeMismatch` record
printed lines.  `onlyInLeft` and `onlyInRight` record the two
`"Only in %v: %v"` lines printed from the first and the second loop
respectively. -/
inductive Report where
  | compareFiles (name path1 path2 : String)
  | recurseDirs (name path1 path2 : String)
  | commonSubdirs (name path1 path2 : String)
  | typeMismatch (name path1 type1 path2 type2 : String)
  | onlyInLeft (dir name : String)
  | onlyInRight (dir name : String)
deriving DecidableEq

/-- `path.Join(dir, name)` for a clean directory path and a plain base
name. -/
def pathJoin (dir name : String) : String :=
  dir ++ "/" ++ name

/-- The text of the line `fmt.Printf("%v is a %s while %v is a %s\n", ...)`
printed for a matched name whose two entries have different types (colour
escape codes of the `color` package ignored). -/
def mismatchLine (path1 type1 path2 type2 : String) : String :=
  path1 ++ " is a " ++ type1 ++ " while " ++ path2 ++ " is a " ++ type2

/-- Classification of a name present in both listings (`diff.go` lines
142-159): `f` is the entry from the first listing, `f2e` the entry found for
the same name in the second listing.  Both plain files → compare; both
directories → recurse when `recursive`, otherwise report a common
subdirectory; otherwise report the type mismatch, naming the first path's
type first. -/
def classifyPair (dir1 dir2 : String) (f f2e : DirEntry) (recursive : Bool) : Report :=
  let path1 := pathJoin dir1 f.name
  let path2 := pathJoin dir2 f.name
  if !f.isDir && !f2e.isDir then
    .compareFiles f.name path1 path2
  else if f.isDir && f2e.isDir then
    if recursive then .recurseDirs f.name path1 path2
    else .commonSubdirs f.name path1 path2
  else if f.isDir && !f2e.isDir then
    .typeMismatch f.name path1 "directory" path2 "file"
  else
    .typeMismatch f.name path1 "file" path2 "directory"

/-- One insertion step when building the Go map `fileSet2`: a later entry
with the same name overwrites an earlier one. -/
def lookupStep (name : String) (acc : Option DirEntry) (f : DirEntry) : Option DirEntry :=
  if f.name = name then some f else acc

/-- Lookup `fileSet2[name]`: the map is built by inserting the entries of the
listing in order, so the entry found is the last one with a matching name. -/
def lookupEntry (files : List DirEntry) (name : String) : Option DirEntry :=
  files.foldl (lookupStep name) none

/-- The first loop of `diffDirs` (`diff.go` lines 137-166): walk the first
listing in order; a name found in `fileSet2` is classified and marked checked
(regardless of how it was classified), a name not found is reported as only
in the first directory.  Returns the reports of this loop together with the
list of names marked checked. -/
def pass1 (dir1 dir2 : String) (files2 : List DirEntry) (recursive : Bool) :
    List DirEntry → List Report × List String
  | [] => ([], [])
  | f :: rest =>
    let tail := pass1 dir1 dir2 files2 recursive rest
    match lookupEntry files2 f.name with
    | some f2e => (classifyPair dir1 dir2 f f2e recursive :: tail.1, f.name :: tail.2)
    | none => (.onlyInLeft dir1 f.name :: tail.1, tail.2)

/-- The second loop of `diffDirs` (`diff.go` lines 169-175): every entry of
the second listing whose name was not marked checked is reported as only in
the second directory. -/
def pass2 (dir2 : String) (files2 : List DirEntry) (checked : List String) : List Report :=
  (files2.filter (fun f => !(decide (f.name ∈ checked)))).map
    (fun f => .onlyInRight dir2 f.name)

/-- The reconciliation performed by `diffDirs` (`diff.go` lines 115-178) on
two directory listings: the outputs of the first loop followed by the
outputs of the second loop.  (The actual print order may interleave because
of the spawned goroutines; the collection of outputs is what is modelled.) -/
def diffDirs (dir1 dir2 : String) (files1 files2 : List DirEntry) (recursive : Bool) :
    List Report :=
  (pass1 dir1 dir2 files2 recursive files1).1
    ++ pass2 dir2 files2 (pass1 dir1 dir2 files2 recursive files1).2

/-- The report produced by one iteration of the first loop for the entry `f`
of the first listing (the body of the `for _, f := range files1` loop, as a
function of `f`). -/
def report1 (dir1 dir2 : String) (files2 : List DirEntry) (recursive : Bool)
    (f : DirEntry) : Report :=
  match lookupEntry files2 f.name with
  | some f2e => classifyPair dir1 dir2 f f2e recursive
  | none => .onlyInLeft dir1 f.name

/-- The matched name recorded by a report produced for a name present in both
listings, and `none` for an `Only in` report. -/
def matchedName : Report → Option String
  | .compareFiles n _ _ => some n
  | .recurseDirs n _ _ => some n
  | .commonSubdirs n _ _ => some n
  | .typeMismatch n _ _ _ _ => some n
  | .onlyInLeft _ _ => none
  | .onlyInRight _ _ => none

/-- The name of an `Only in` report printed from the first loop, `none` for
every other report. -/
def leftName : Report → Option String
  | .onlyInLeft _ n => some n
  | _ => none

/-- The name of an `Only in` report printed from the second loop, `none` for
every other report. -/
def rightName : Report → Option String
  | .onlyInRight _ n => some n
  | _ => none

/-- Names of the matched reports of a reconciliation output. -/
def matchedNames (rs : List Report) : List String :=
  rs.filterMap matchedName

/-- Names reported as only in the first directory. -/
def onlyLeftNames (rs : List Report) : List String :=
  rs.filterMap leftName

/-- Names reported as only in the second directory. -/
def onlyRightNames (rs : List Report) : List String :=
  rs.filterMap rightName

/-- Whether a report is the "Common subdirectories" line for the matched
name `n`. -/
def isCommonSubdirNamed (n : String) : Report → Bool
  | .commonSubdirs m _ _ => decide (m = n)
  | _ => false

/-- Whether a report is a recursive descent into a pair of subdirectories
(a spawned `go diffDirs(path1, path2, true)`).  Descending is the only way
any file below the two roots' immediate children is ever opened or read, so
an output with no such report opens no file inside any subdirectory. -/
def isRecurse : Report → Bool
  | .recurseDirs _ _ _ => true
  | _ => false

/-- The action `main` (`diff.go` lines 180-215) decides on after parsing the
flags. -/
inductive MainAction where
  | printHelp
  | runDiffFiles (path1 path2 : String)
  | runDiffDirs (path1 path2 : String) (recursive : Bool)
  | rejectMixed
deriving DecidableEq

/-- Exit status of each action: the help path calls `os.Exit(0)`, the mixed
file-versus-directory path calls `os.Exit(1)`, and a completed comparison
falls off the end of `main` with status 0. -/
def exitCode : MainAction → Nat
  | .rejectMixed => 1
  | _ => 0

/-- Whether the action spawns a comparison (`go diffFiles` or `go diffDirs`).
File contents are read only inside a comparison, so an action with no
comparison performs zero file reads. -/
def performsComparison : MainAction → Bool
  | .runDiffFiles _ _ => true
  | .runDiffDirs _ _ _ => true
  | _ => false

/-- The message printed before exiting, when the action prints one. -/
def messageOf : MainAction → Option String
  | .printHelp => some "Usage: diff [flags] path1 path2"
  | .rejectMixed => some "Cannot compare between a file and a directory."
  | _ => none

/-- The decision logic of `main` (`diff.go` lines 180-215): `help` is the
parsed `-h` flag, `args` the positional arguments, and `isDir` the result of
`os.Stat(path).IsDir()` for each path (both paths assumed to stat without
error).  Help requested or a wrong number of positional arguments prints the
usage text and exits 0; two non-directories are compared as files; two
directories are compared as directories; a file and a directory are
rejected with exit status 1. -/
def mainLogic (help recursive : Bool) (args : List String) (isDir : String → Bool) :
    MainAction :=
  if help = true ∨ args.length ≠ 2 then .printHelp
  else
    let path1 := args.getD 0 ""
    let path2 := args.getD 1 ""
    if !(isDir path1) && !(isDir path2) then .runDiffFiles path1 path2
    else if isDir path1 && isDir path2 then .runDiffDirs path1 path2 recursive
    else .rejectMixed

lemma storeChunk_eq_iff (b : List Nat) {c1 c2 : List Nat} (hlen : c1.length = c2.length) :
    (storeChunk b c1 = storeChunk b c2) ↔ c1 = c2 := by
  unfold storeChunk
  rw [hlen]
  constructor
  · exact fun h => List.append_cancel_right h
  · intro h; rw [h]

lemma cmpStep_same_buffer (b : List Nat) (c1 c2 : List Nat) :
    cmpStep b b c1 c2 = decide (c1 = c2) := by
  unfold cmpStep
  by_cases hlen : c1.length = c2.length
  · rw [if_neg (fun h => h hlen)]
    exact decide_eq_decide.mpr (storeChunk_eq_iff b hlen)
  · rw [if_pos hlen]
    have hne : c1 ≠ c2 := fun h => hlen (by rw [h])
    simp [hne]

lemma cmpLoop_self_aux (n : Nat) :
    ∀ rem1 rem2 b : List Nat, rem1.length ≤ n →
      cmpLoop b b rem1 rem2 = decide (rem1 = rem2) := by
  induction n with
  | zero =>
    intro rem1 rem2 b hlen
    have h1 : rem1 = [] := List.eq_nil_of_length_eq_zero (Nat.le_zero.mp hlen)
    subst h1
    rw [cmpLoop]
    simp [eq_comm]
  | succ n ih =>
    intro rem1 rem2 b hlen
    rw [cmpLoop]
    by_cases h1 : rem1 = []
    · simp [h1, eq_comm]
    · by_cases h2 : rem2 = []
      · simp [h1, h2]
      · simp only [h1, h2, dif_neg, not_false_iff]
        rw [cmpStep_same_buffer]
        by_cases hc : rem1.take CHUNK_SIZE = rem2.take CHUNK_SIZE
        · simp only [hc, decide_eq_true_eq, if_pos, ite_true, decide_True]
          have hrec := ih (rem1.drop CHUNK_SIZE) (rem2.drop CHUNK_SIZE)
            (storeChunk b (rem2.take CHUNK_SIZE))
            (by
              have hpos : 0 < rem1.length := List.length_pos.mpr h1
              simp only [List.length_drop]
              have : CHUNK_SIZE = 4096 := rfl
              omega)
          rw [hrec]
          have hiff : rem1 = rem2 ↔ rem1.drop CHUNK_SIZE = rem2.drop CHUNK_SIZE := by
            constructor
            · intro h; rw [h]
            · intro h
              have e1 := List.take_append_drop CHUNK_SIZE rem1
              have e2 := List.take_append_drop CHUNK_SIZE rem2
              rw [← e1, ← e2, hc, h]
          exact (decide_eq_decide.mpr hiff.symm)
        · simp only [hc, decide_False, Bool.false_eq_true, if_false, ite_false]
          have hne : rem1 ≠ rem2 := fun h => hc (by rw [h])
          simp [hne]

lemma cmpLoop_self (b rem1 rem2 : List Nat) :
    cmpLoop b b rem1 rem2 = decide (rem1 = rem2) :=
  cmpLoop_self_aux rem1.length rem1 rem2 b (le_refl _)

lemma cmpFiles_eq_decide (file1 file2 : List Nat) :
    cmpFiles file1 file2 = decide (file1 = file2) := by
  unfold cmpFiles
  by_cases hlen : file1.length = file2.length
  · rw [if_neg (fun h => h hlen)]
    exact cmpLoop_self _ _ _
  · rw [if_pos hlen]
    have hne : file1 ≠ file2 := fun h => hlen (by rw [h])
    simp [hne]

lemma foldl_lookupStep_none (n : String) :
    ∀ (files : List DirEntry) (acc : Option DirEntry),
      (files.foldl (lookupStep n) acc = none ↔
        acc = none ∧ ∀ f ∈ files, f.name ≠ n) := by
  intro files
  induction files with
  | nil => intro acc; simp
  | cons f rest ih =>
    intro acc
    rw [List.foldl_cons, ih]
    unfold lookupStep
    by_cases hf : f.name = n
    · simp [hf]
    · simp only [hf, if_neg, ite_false, List.mem_cons]
      constructor
      · rintro ⟨ha, hrest⟩
        refine ⟨ha, ?_⟩
        rintro g (rfl | hg)
        · exact hf
        · exact hrest g hg
      · rintro ⟨ha, hall⟩
        exact ⟨ha, fun g hg => hall g (Or.inr hg)⟩

lemma lookupEntry_eq_none_iff (files : List DirEntry) (n : String) :
    lookupEntry files n = none ↔ ∀ f ∈ files, f.name ≠ n := by
  unfold lookupEntry
  rw [foldl_lookupStep_none]
  simp

lemma lookupEntry_eq_none_iff_names (files : List DirEntry) (n : String) :
    lookupEntry files n = none ↔ n ∉ files.map DirEntry.name := by
  rw [lookupEntry_eq_none_iff]
  constructor
  · intro h hmem
    obtain ⟨f, hf, hfn⟩ := List.mem_map.mp hmem
    exact h f hf hfn
  · intro h f hf hfn
    exact h (List.mem_map.mpr ⟨f, hf, hfn⟩)

lemma lookupEntry_isSome_iff (files : List DirEntry) (n : String) :
    (lookupEntry files n).isSome = true ↔ n ∈ files.map DirEntry.name := by
  rw [Option.isSome_iff_ne_none, ne_eq, lookupEntry_eq_none_iff_names, not_not]

lemma foldl_lookupStep_some (n : String) :
    ∀ (files : List DirEntry) (acc : Option DirEntry) (e : DirEntry),
      files.foldl (lookupStep n) acc = some e →
      (e ∈ files ∧ e.name = n) ∨ acc = some e := by
  intro files
  induction files with
  | nil => intro acc e h; right; exact h
  | cons f rest ih =>
    intro acc e h
    rw [List.foldl_cons] at h
    rcases ih _ e h with h1 | h1
    · exact Or.inl ⟨List.mem_cons_of_mem _ h1.1, h1.2⟩
    · unfold lookupStep at h1
      by_cases hf : f.name = n
      · rw [if_pos hf] at h1
        have h2 := Option.some.inj h1
        subst h2
        exact Or.inl ⟨List.mem_cons_self _ _, hf⟩
      · rw [if_neg hf] at h1
        exact Or.inr h1

lemma lookupEntry_some_mem {files : List DirEntry} {n : String} {e : DirEntry}
    (h : lookupEntry files n = some e) : e ∈ files ∧ e.name = n := by
  rcases foldl_lookupStep_some n files none e h with h1 | h1
  · exact h1
  · exact absurd h1 (by simp)

lemma lookupEntry_of_nodup {files : List DirEntry} {e : DirEntry}
    (hnd : (files.map DirEntry.name).Nodup) (he : e ∈ files) :
    lookupEntry files e.name = some e := by
  cases hlk : lookupEntry files e.name with
  | none =>
    rw [lookupEntry_eq_none_iff] at hlk
    exact absurd rfl (hlk e he)
  | some x =>
    obtain ⟨hx, hxn⟩ := lookupEntry_some_mem hlk
    rw [List.inj_on_of_nodup_map hnd hx he hxn]

lemma pass1_fst (dir1 dir2 : String) (files2 : List DirEntry) (recursive : Bool)
    (files1 : List DirEntry) :
    (pass1 dir1 dir2 files2 recursive files1).1 =
      files1.map (report1 dir1 dir2 files2 recursive) := by
  induction files1 with
  | nil => rfl
  | cons f rest ih =>
    cases hlk : lookupEntry files2 f.name <;>
      simp [pass1, report1, hlk, ih]

lemma pass1_snd (dir1 dir2 : String) (files2 : List DirEntry) (recursive : Bool)
    (files1 : List DirEntry) :
    (pass1 dir1 dir2 files2 recursive files1).2 =
      (files1.filter (fun f => (lookupEntry files2 f.name).isSome)).map DirEntry.name := by
  induction files1 with
  | nil => rfl
  | cons f rest ih =>
    cases hlk : lookupEntry files2 f.name <;>
      simp [pass1, List.filter_cons, hlk, ih]

lemma matchedName_classifyPair (dir1 dir2 : String) (f f2e : DirEntry)
    (recursive : Bool) :
    matchedName (classifyPair dir1 dir2 f f2e recursive) = some f.name := by
  unfold classifyPair
  split_ifs <;> rfl

lemma leftName_classifyPair (dir1 dir2 : String) (f f2e : DirEntry)
    (recursive : Bool) :
    leftName (classifyPair dir1 dir2 f f2e recursive) = none := by
  unfold classifyPair
  split_ifs <;> rfl

lemma rightName_classifyPair (dir1 dir2 : String) (f f2e : DirEntry)
    (recursive : Bool) :
    rightName (classifyPair dir1 dir2 f f2e recursive) = none := by
  unfold classifyPair
  split_ifs <;> rfl

lemma map_name_filter (p : String → Bool) (l : List DirEntry) :
    (l.filter (fun f => p f.name)).map DirEntry.name =
      (l.map DirEntry.name).filter p := by
  induction l with
  | nil => rfl
  | cons f rest ih => by_cases hp : p f.name <;> simp [List.filter_cons, hp, ih]

lemma filterMap_onlyInRight (dir2 : String) (l : List DirEntry) :
    l.filterMap (rightName ∘ fun f => Report.onlyInRight dir2 f.name) =
      l.map DirEntry.name := by
  induction l with
  | nil => rfl
  | cons f rest ih => simp [List.filterMap_cons, Function.comp, rightName, ih]

lemma filterMap_leftName_report1 (dir1 dir2 : String) (files2 : List DirEntry)
    (recursive : Bool) (files1 : List DirEntry) :
    files1.filterMap (leftName ∘ report1 dir1 dir2 files2 recursive) =
      (files1.filter
        (fun f => !(decide (f.name ∈ files2.map DirEntry.name)))).map DirEntry.name := by
  induction files1 with
  | nil => rfl
  | cons f rest ih =>
    cases hlk : lookupEntry files2 f.name with
    | none =>
      have hmem : ¬ f.name ∈ files2.map DirEntry.name :=
        (lookupEntry_eq_none_iff_names files2 f.name).mp hlk
      have hc : (!(decide (f.name ∈ files2.map DirEntry.name))) = true := by
        simp [hmem]
      have hr : (leftName ∘ report1 dir1 dir2 files2 recursive) f = some f.name := by
        simp [Function.comp, report1, hlk, leftName]
      rw [List.filterMap_cons, List.filter_cons, hr, hc]
      simp [ih]
    | some f2e =>
      have hmem : f.name ∈ files2.map DirEntry.name := by
        rw [← lookupEntry_isSome_iff, hlk]
        rfl
      have hc : (!(decide (f.name ∈ files2.map DirEntry.name))) = false := by
        simp [hmem]
      have hr : (leftName ∘ report1 dir1 dir2 files2 recursive) f = none := by
        simp [Function.comp, report1, hlk, leftName_classifyPair]
      rw [List.filterMap_cons, List.filter_cons, hr, hc]
      simp [ih]

lemma filterMap_matchedName_report1 (dir1 dir2 : String) (files2 : List DirEntry)
    (recursive : Bool) (files1 : List DirEntry) :
    files1.filterMap (matchedName ∘ report1 dir1 dir2 files2 recursive) =
      (files1.filter
        (fun f => decide (f.name ∈ files2.map DirEntry.name))).map DirEntry.name := by
  induction files1 with
  | nil => rfl
  | cons f rest ih =>
    cases hlk : lookupEntry files2 f.name with
    | none =>
      have hmem : ¬ f.name ∈ files2.map DirEntry.name :=
        (lookupEntry_eq_none_iff_names files2 f.name).mp hlk
      have hc : (decide (f.name ∈ files2.map DirEntry.name)) = false := by
        simp [hmem]
      have hr : (matchedName ∘ report1 dir1 dir2 files2 recursive) f = none := by
        simp [Function.comp, report1, hlk, matchedName]
      rw [List.filterMap_cons, List.filter_cons, hr, hc]
      simp [ih]
    | some f2e =>
      have hmem : f.name ∈ files2.map DirEntry.name := by
        rw [← lookupEntry_isSome_iff, hlk]
        rfl
      have hc : (decide (f.name ∈ files2.map DirEntry.name)) = true := by
        simp [hmem]
      have hr : (matchedName ∘ report1 dir1 dir2 files2 recursive) f = some f.name := by
        simp [Function.comp, report1, hlk, matchedName_classifyPair]
      rw [List.filterMap_cons, List.filter_cons, hr, hc]
      simp [ih]

lemma onlyLeftNames_diffDirs (dir1 dir2 : String) (files1 files2 : List DirEntry)
    (recursive : Bool) :
    onlyLeftNames (diffDirs dir1 dir2 files1 files2 recursive) =
      (files1.map DirEntry.name).filter
        (fun n => !(decide (n ∈ files2.map DirEntry.name))) := by
  unfold diffDirs onlyLeftNames
  rw [List.filterMap_append]
  have h2 : (pass2 dir2 files2 (pass1 dir1 dir2 files2 recursive files1).2).filterMap
      leftName = [] := by
    unfold pass2
    rw [List.filterMap_map]
    apply List.filterMap_eq_nil_iff.mpr
    intro f _
    rfl
  rw [h2, List.append_nil, pass1_fst, List.filterMap_map,
    filterMap_leftName_report1]
  exact map_name_filter (fun n => !(decide (n ∈ files2.map DirEntry.name))) files1

lemma matchedNames_diffDirs (dir1 dir2 : String) (files1 files2 : List DirEntry)
    (recursive : Bool) :
    matchedNames (diffDirs dir1 dir2 files1 files2 recursive) =
      (files1.map DirEntry.name).filter
        (fun n => decide (n ∈ files2.map DirEntry.name)) := by
  unfold diffDirs matchedNames
  rw [List.filterMap_append]
  have h2 : (pass2 dir2 files2 (pass1 dir1 dir2 files2 recursive files1).2).filterMap
      matchedName = [] := by
    unfold pass2
    rw [List.filterMap_map]
    apply List.filterMap_eq_nil_iff.mpr
    intro f _
    rfl
  rw [h2, List.append_nil, pass1_fst, List.filterMap_map,
    filterMap_matchedName_report1]
  exact map_name_filter (fun n => decide (n ∈ files2.map DirEntry.name)) files1

lemma checked_mem_iff (dir1 dir2 : String) (files1 files2 : List DirEntry)
    (recursive : Bool) (n : String) :
    n ∈ (pass1 dir1 dir2 files2 recursive files1).2 ↔
      n ∈ files1.map DirEntry.name ∧ n ∈ files2.map DirEntry.name := by
  rw [pass1_snd]
  constructor
  · intro h
    obtain ⟨f, hf, rfl⟩ := List.mem_map.mp h
    have hf2 := List.mem_filter.mp hf
    refine ⟨List.mem_map.mpr ⟨f, hf2.1, rfl⟩, ?_⟩
    exact (lookupEntry_isSome_iff files2 f.name).mp hf2.2
  · rintro ⟨h1, h2⟩
    obtain ⟨f, hf1, rfl⟩ := List.mem_map.mp h1
    refine List.mem_map.mpr ⟨f, List.mem_filter.mpr ⟨hf1, ?_⟩, rfl⟩
    exact (lookupEntry_isSome_iff files2 f.name).mpr h2

lemma onlyRightNames_diffDirs (dir1 dir2 : String) (files1 files2 : List DirEntry)
    (recursive : Bool) :
    onlyRightNames (diffDirs dir1 dir2 files1 files2 recursive) =
      (files2.map DirEntry.name).filter
        (fun n => !(decide (n ∈ files1.map DirEntry.name))) := by
  unfold diffDirs onlyRightNames
  rw [List.filterMap_append, pass1_fst, List.filterMap_map]
  have h1 : files1.filterMap
      (rightName ∘ report1 dir1 dir2 files2 recursive) = [] := by
    apply List.filterMap_eq_nil_iff.mpr
    intro f _
    simp only [Function.comp_apply, report1]
    cases lookupEntry files2 f.name with
    | none => rfl
    | some f2e => exact rightName_classifyPair dir1 dir2 f f2e recursive
  rw [h1, List.nil_append]
  clear h1
  unfold pass2
  rw [List.filterMap_map]
  have h3 : ∀ f ∈ files2,
      (!(decide (f.name ∈ (pass1 dir1 dir2 files2 recursive files1).2))) =
        (!(decide (f.name ∈ files1.map DirEntry.name))) := by
    intro f hf
    have hmem2 : f.name ∈ files2.map DirEntry.name := List.mem_map.mpr ⟨f, hf, rfl⟩
    have hiff : (f.name ∈ (pass1 dir1 dir2 files2 recursive files1).2) ↔
        f.name ∈ files1.map DirEntry.name := by
      rw [checked_mem_iff]
      exact ⟨fun h => h.1, fun h => ⟨h, hmem2⟩⟩
    rw [decide_eq_decide.mpr hiff]
  rw [List.filter_congr h3, filterMap_onlyInRight]
  exact map_name_filter (fun n => !(decide (n ∈ files1.map DirEntry.name))) files2

lemma filter_name_unique (files : List DirEntry) (e : DirEntry)
    (hnd : (files.map DirEntry.name).Nodup) (he : e ∈ files) :
    files.filter (fun f => decide (f.name = e.name)) = [e] := by
  induction files with
  | nil => cases he
  | cons f rest ih =>
    rw [List.map_cons, List.nodup_cons] at hnd
    rw [List.filter_cons]
    by_cases hf : f.name = e.name
    · have hfe : f = e := by
        rcases List.mem_cons.mp he with h | he'
        · exact h.symm
        · exact absurd (hf ▸ List.mem_map.mpr ⟨e, he', rfl⟩) hnd.1
      subst hfe
      have hrest : rest.filter (fun g => decide (g.name = f.name)) = [] := by
        apply List.filter_eq_nil_iff.mpr
        intro g hg
        simp only [decide_eq_true_eq]
        intro hgf
        exact hnd.1 (hgf ▸ List.mem_map.mpr ⟨g, hg, rfl⟩)
      simp [hrest]
    · have he' : e ∈ rest := by
        rcases List.mem_cons.mp he with h | he'
        · exact absurd (h ▸ rfl) hf
        · exact he'
      have hc : decide (f.name = e.name) = false := decide_eq_false hf
      rw [hc]
      simpa using ih hnd.2 he'

lemma isCommonSubdirNamed_classifyPair (dir1 dir2 : String) (f f2e : DirEntry)
    (recursive : Bool) (n : String) (hne : f.name ≠ n) :
    isCommonSubdirNamed n (classifyPair dir1 dir2 f f2e recursive) = false := by
  unfold classifyPair
  split_ifs <;> simp [isCommonSubdirNamed, hne]

lemma isRecurse_classifyPair (dir1 dir2 : String) (f f2e : DirEntry) :
    isRecurse (classifyPair dir1 dir2 f f2e false) = false := by
  unfold classifyPair
  split_ifs <;> first | rfl | simp_all

lemma mismatchLine_ne (p1 p2 : String) :
    mismatchLine p1 "directory" p2 "file" ≠ mismatchLine p1 "file" p2 "directory" := by
  intro h
  have hd := congrArg String.data h
  simp only [mismatchLine, String.data_append, List.append_assoc] at hd
  have h3 := List.append_cancel_left hd
  have h4 := List.append_cancel_left h3
  have h5 : some 'd' = some 'f' := congrArg List.head? h4
  simp at h5

/-- C1: for all pairs of byte sequences stored in the two files (no I/O
fault occurring), `cmpFiles` returns `true` iff the two sequences have
identical length and identical byte content; in particular it is `true` for
empty-vs-empty and `false` for empty-vs-nonempty and for same-length
sequences differing only in their final byte. -/
theorem cmpFiles_eq_true_iff (file1 file2 : List Nat) :
    cmpFiles file1 file2 = true ↔ file1 = file2 := by
  rw [cmpFiles_eq_decide]
  simp

/-- Witness for `cmpFiles_eq_true_iff` at concrete inputs. -/
theorem cmpFiles_eq_true_iff_witness :
    (cmpFiles [1, 2] [1, 2] = true ↔ ([1, 2] : List Nat) = [1, 2]) ∧
      (cmpFiles [] [7] = true ↔ ([] : List Nat) = [7]) :=
  ⟨cmpFiles_eq_true_iff [1, 2] [1, 2], cmpFiles_eq_true_iff [] [7]⟩

/-- C10: `cmpFiles` is symmetric in its two arguments: for every pair of
file contents it returns the same boolean with the arguments swapped. -/
theorem cmpFiles_symm (file1 file2 : List Nat) :
    cmpFiles file1 file2 = cmpFiles file2 file1 := by
  rw [cmpFiles_eq_decide, cmpFiles_eq_decide]
  exact decide_eq_decide.mpr eq_comm

/-- C3: in an iteration of the `cmpFiles` loop in which the two reads
returned equal byte counts `n` smaller than the chunk size, and in which the
two buffers agree beyond index `n` (which is the loop invariant: the buffers
start zero-filled and every earlier iteration passed the full-buffer
equality test, see `cmpLoop_self`), the iteration's verdict is decided by
the `n` bytes just read alone — the stale bytes beyond index `n` never
change it; and whenever the two reads return different byte counts the
verdict is "different". -/
theorem cmpStep_stale_irrelevant (b1 b2 c1 c2 : List Nat) :
    (c1.length = c2.length → c1.length < CHUNK_SIZE →
      b1.drop c1.length = b2.drop c2.length →
      cmpStep b1 b2 c1 c2 = decide (c1 = c2))
    ∧ (c1.length ≠ c2.length → cmpStep b1 b2 c1 c2 = false) := by
  constructor
  · intro hlen _hlt hstale
    unfold cmpStep
    rw [if_neg (fun hcontra => hcontra hlen)]
    unfold storeChunk
    rw [hstale]
    apply decide_eq_decide.mpr
    constructor
    · intro h
      exact List.append_cancel_right h
    · intro h
      rw [h]
  · intro hne
    unfold cmpStep
    rw [if_pos hne]

/-- Witness for `cmpStep_stale_irrelevant` at concrete inputs: buffers `[5, 3]`
and `[6, 3]` agree beyond index 1, so the verdict equals the comparison of
the one-byte chunks; and chunks of different lengths give verdict
"different". -/
theorem cmpStep_stale_irrelevant_witness :
    cmpStep [5, 3] [6, 3] [1] [1] = decide (([1] : List Nat) = [1])
    ∧ cmpStep [5, 3] [6, 3] [1] [] = false :=
  ⟨(cmpStep_stale_irrelevant [5, 3] [6, 3] [1] [1]).1 (by decide) (by decide) (by decide),
   (cmpStep_stale_irrelevant [5, 3] [6, 3] [1] []).2 (by decide)⟩

/-- C5: `cmpFiles` never reads past the first point of difference: if the
two files' total lengths differ it returns "different" with zero `Read`
calls, and if two same-length files differ already in their first chunk it
returns "different" after exactly one `Read` call per file. -/
theorem cmpFiles_short_circuit (file1 file2 : List Nat) :
    (file1.length ≠ file2.length → cmpFilesReads file1 file2 = (false, 0))
    ∧ (file1.length = file2.length →
        file1.take CHUNK_SIZE ≠ file2.take CHUNK_SIZE →
        cmpFilesReads file1 file2 = (false, 1)) := by
  constructor
  · intro h
    unfold cmpFilesReads
    rw [if_pos h]
  · intro hlen htake
    have h1 : file1 ≠ [] := by
      intro hnil
      subst hnil
      have h2 : file2 = [] := List.eq_nil_of_length_eq_zero hlen.symm
      subst h2
      exact htake rfl
    have h2 : file2 ≠ [] := by
      intro hnil
      subst hnil
      have h1' : file1 = [] := List.eq_nil_of_length_eq_zero hlen
      exact h1 h1'
    unfold cmpFilesReads
    rw [if_neg (fun hcontra => hcontra hlen)]
    rw [cmpLoopReads]
    rw [dif_neg h1, dif_neg h2, cmpStep_same_buffer]
    rw [if_neg (by simp [htake])]

/-- Witness for `cmpFiles_short_circuit` at concrete inputs. -/
theorem cmpFiles_short_circuit_witness :
    cmpFilesReads [] [1] = (false, 0) ∧ cmpFilesReads [1] [2] = (false, 1) :=
  ⟨(cmpFiles_short_circuit [] [1]).1 (by decide),
   (cmpFiles_short_circuit [1] [2]).2 (by decide) (by decide)⟩

/-- C2: the reconciliation pass of `diffDirs` classifies every name into
exactly one category: the names reported only-in-left are exactly the names
of the first listing absent from the second, the names reported
only-in-right are exactly the names of the second listing absent from the
first, the matched names (compared, recursed, skipped subdirectory or type
mismatch) are exactly the names present in both, and the three categories
are pairwise disjoint — in particular a name matched with mismatching types
is never also reported as only-in-right. -/
theorem diffDirs_partition (dir1 dir2 : String) (files1 files2 : List DirEntry)
    (recursive : Bool) :
    onlyLeftNames (diffDirs dir1 dir2 files1 files2 recursive) =
      (files1.map DirEntry.name).filter
        (fun n => !(decide (n ∈ files2.map DirEntry.name)))
    ∧ onlyRightNames (diffDirs dir1 dir2 files1 files2 recursive) =
        (files2.map DirEntry.name).filter
          (fun n => !(decide (n ∈ files1.map DirEntry.name)))
    ∧ matchedNames (diffDirs dir1 dir2 files1 files2 recursive) =
        (files1.map DirEntry.name).filter
          (fun n => decide (n ∈ files2.map DirEntry.name))
    ∧ List.Disjoint (onlyLeftNames (diffDirs dir1 dir2 files1 files2 recursive))
        (onlyRightNames (diffDirs dir1 dir2 files1 files2 recursive))
    ∧ List.Disjoint (onlyLeftNames (diffDirs dir1 dir2 files1 files2 recursive))
        (matchedNames (diffDirs dir1 dir2 files1 files2 recursive))
    ∧ List.Disjoint (onlyRightNames (diffDirs dir1 dir2 files1 files2 recursive))
        (matchedNames (diffDirs dir1 dir2 files1 files2 recursive)) := by
  refine ⟨onlyLeftNames_diffDirs dir1 dir2 files1 files2 recursive,
    onlyRightNames_diffDirs dir1 dir2 files1 files2 recursive,
    matchedNames_diffDirs dir1 dir2 files1 files2 recursive, ?_, ?_, ?_⟩
  · rw [onlyLeftNames_diffDirs, onlyRightNames_diffDirs]
    intro a ha hb
    have h1 := (List.mem_filter.mp ha).2
    have h2 := (List.mem_filter.mp hb).1
    simp only [Bool.not_eq_true', decide_eq_false_iff_not] at h1
    exact h1 h2
  · rw [onlyLeftNames_diffDirs, matchedNames_diffDirs]
    intro a ha hb
    have h1 := (List.mem_filter.mp ha).2
    have h2 := (List.mem_filter.mp hb).2
    simp only [Bool.not_eq_true', decide_eq_false_iff_not] at h1
    simp only [decide_eq_true_eq] at h2
    exact h1 h2
  · rw [onlyRightNames_diffDirs, matchedNames_diffDirs]
    intro a ha hb
    have h1 := (List.mem_filter.mp ha).2
    have h2 := (List.mem_filter.mp hb).1
    simp only [Bool.not_eq_true', decide_eq_false_iff_not] at h1
    exact h1 h2

/-- Witness for `diffDirs_partition` at concrete listings. -/
theorem diffDirs_partition_witness :
    onlyLeftNames (diffDirs "a" "b" [⟨"x", false⟩] [⟨"y", false⟩] false) =
      ((([⟨"x", false⟩] : List DirEntry).map DirEntry.name).filter
        (fun n => !(decide (n ∈ ([⟨"y", false⟩] : List DirEntry).map DirEntry.name)))) :=
  (diffDirs_partition "a" "b" [⟨"x", false⟩] [⟨"y", false⟩] false).1

/-- C8: in a non-recursive run, a name present as a directory in both
listings produces exactly one "Common subdirectories" report, and no descent
into any subdirectory pair occurs (no `go diffDirs` task is spawned, which is
the only way a file inside a common subdirectory could be opened or read). -/
theorem diffDirs_common_subdir_skip (dir1 dir2 : String)
    (files1 files2 : List DirEntry) (e1 e2 : DirEntry)
    (h1 : (files1.map DirEntry.name).Nodup) (h2 : (files2.map DirEntry.name).Nodup)
    (he1 : e1 ∈ files1) (he2 : e2 ∈ files2) (hn : e2.name = e1.name)
    (hd1 : e1.isDir = true) (hd2 : e2.isDir = true) :
    (diffDirs dir1 dir2 files1 files2 false).countP (isCommonSubdirNamed e1.name) = 1
    ∧ ∀ r ∈ diffDirs dir1 dir2 files1 files2 false, isRecurse r = false := by
  have hlk : lookupEntry files2 e1.name = some e2 := by
    rw [← hn]
    exact lookupEntry_of_nodup h2 he2
  constructor
  · unfold diffDirs
    rw [List.countP_append, pass1_fst, List.countP_map]
    have hp2 : (pass2 dir2 files2 (pass1 dir1 dir2 files2 false files1).2).countP
        (isCommonSubdirNamed e1.name) = 0 := by
      apply List.countP_eq_zero.mpr
      intro r hr
      unfold pass2 at hr
      obtain ⟨f, _, rfl⟩ := List.mem_map.mp hr
      simp [isCommonSubdirNamed]
    rw [hp2, Nat.add_zero]
    have hpt : ∀ f ∈ files1,
        (isCommonSubdirNamed e1.name ∘ report1 dir1 dir2 files2 false) f =
          decide (f.name = e1.name) := by
      intro f hf
      by_cases hfe : f.name = e1.name
      · have hfeq : f = e1 := List.inj_on_of_nodup_map h1 hf he1 hfe
        subst hfeq
        simp only [Function.comp_apply, report1, hfe ▸ hlk]
        unfold classifyPair
        simp [hd1, hd2, isCommonSubdirNamed, hfe]
      · simp only [Function.comp_apply, report1]
        cases hlk2 : lookupEntry files2 f.name with
        | none => simp [isCommonSubdirNamed, hfe]
        | some f2e =>
          rw [isCommonSubdirNamed_classifyPair dir1 dir2 f f2e false e1.name hfe]
          simp [hfe]
    rw [List.countP_eq_length_filter, List.filter_congr hpt,
      filter_name_unique files1 e1 h1 he1]
    rfl
  · intro r hr
    unfold diffDirs at hr
    rcases List.mem_append.mp hr with hr1 | hr2
    · rw [pass1_fst] at hr1
      obtain ⟨f, _, rfl⟩ := List.mem_map.mp hr1
      unfold report1
      cases hlk2 : lookupEntry files2 f.name with
      | none => rfl
      | some f2e => exact isRecurse_classifyPair dir1 dir2 f f2e
    · unfold pass2 at hr2
      obtain ⟨f, _, rfl⟩ := List.mem_map.mp hr2
      rfl

/-- Witness for `diffDirs_common_subdir_skip` at concrete listings: the name
`sub` is a directory in both listings. -/
theorem diffDirs_common_subdir_skip_witness :
    (diffDirs "a" "b" [⟨"sub", true⟩] [⟨"sub", true⟩] false).countP
      (isCommonSubdirNamed "sub") = 1 :=
  (diffDirs_common_subdir_skip "a" "b" [⟨"sub", true⟩] [⟨"sub", true⟩]
    ⟨"sub", true⟩ ⟨"sub", true⟩ (by simp) (by simp)
    (List.mem_singleton.mpr rfl) (List.mem_singleton.mpr rfl) rfl rfl rfl).1

/-- C9: type-mismatch reporting is order-sensitive: a matched name whose
left entry is a directory and right entry a file is reported with the left
path labelled "directory" and the right path labelled "file"; the opposite
pairing is reported the opposite way; and the two rendered report lines are
never equal, so the two cases are always distinguishable in the output. -/
theorem typeMismatch_order_sensitive (dir1 dir2 : String) (e1 e2 : DirEntry)
    (recursive : Bool) :
    (e1.isDir = true → e2.isDir = false →
      classifyPair dir1 dir2 e1 e2 recursive =
        Report.typeMismatch e1.name (pathJoin dir1 e1.name) "directory"
          (pathJoin dir2 e1.name) "file")
    ∧ (e1.isDir = false → e2.isDir = true →
        classifyPair dir1 dir2 e1 e2 recursive =
          Report.typeMismatch e1.name (pathJoin dir1 e1.name) "file"
            (pathJoin dir2 e1.name) "directory")
    ∧ mismatchLine (pathJoin dir1 e1.name) "directory" (pathJoin dir2 e1.name) "file" ≠
        mismatchLine (pathJoin dir1 e1.name) "file" (pathJoin dir2 e1.name) "directory" := by
  refine ⟨?_, ?_, mismatchLine_ne _ _⟩
  · intro hd1 hd2
    unfold classifyPair
    simp [hd1, hd2]
  · intro hd1 hd2
    unfold classifyPair
    simp [hd1, hd2]

/-- Witness for `typeMismatch_order_sensitive` at a concrete matched pair. -/
theorem typeMismatch_order_sensitive_witness :
    classifyPair "a" "b" ⟨"x", true⟩ ⟨"x", false⟩ false =
      Report.typeMismatch "x" (pathJoin "a" "x") "directory" (pathJoin "b" "x") "file"
    ∧ mismatchLine (pathJoin "a" "x") "directory" (pathJoin "b" "x") "file" ≠
        mismatchLine (pathJoin "a" "x") "file" (pathJoin "b" "x") "directory" :=
  ⟨(typeMismatch_order_sensitive "a" "b" ⟨"x", true⟩ ⟨"x", false⟩ false).1 rfl rfl,
   (typeMismatch_order_sensitive "a" "b" ⟨"x", true⟩ ⟨"x", false⟩ false).2.2⟩

/-- C6: invoked with a number of positional arguments other than two, the
program behaves as if help were requested: it prints the usage text,
performs no comparison (hence no file reads), and exits with status 0. -/
theorem mainLogic_wrong_argc (help recursive : Bool) (args : List String)
    (isDir : String → Bool) (h : args.length ≠ 2) :
    mainLogic help recursive args isDir = MainAction.printHelp
    ∧ exitCode (mainLogic help recursive args isDir) = 0
    ∧ performsComparison (mainLogic help recursive args isDir) = false
    ∧ messageOf (mainLogic help recursive args isDir) =
        some "Usage: diff [flags] path1 path2" := by
  have h1 : mainLogic help recursive args isDir = MainAction.printHelp := by
    unfold mainLogic
    rw [if_pos (Or.inr h)]
  exact ⟨h1, by rw [h1]; rfl, by rw [h1]; rfl, by rw [h1]; rfl⟩

/-- Witness for `mainLogic_wrong_argc` at a concrete invocation with zero
positional arguments. -/
theorem mainLogic_wrong_argc_witness :
    mainLogic false false [] (fun _ => false) = MainAction.printHelp
    ∧ exitCode (mainLogic false false [] (fun _ => false)) = 0
    ∧ performsComparison (mainLogic false false [] (fun _ => false)) = false
    ∧ messageOf (mainLogic false false [] (fun _ => false)) =
        some "Usage: diff [flags] path1 path2" :=
  mainLogic_wrong_argc false false [] (fun _ => false) (by decide)

/-- C7: when one root path is a plain file and the other a directory, the
program prints the explanatory message, exits with status 1, and spawns no
comparison — hence performs zero file reads. -/
theorem mainLogic_mixed (recursive : Bool) (p1 p2 : String) (isDir : String → Bool)
    (h : isDir p1 ≠ isDir p2) :
    mainLogic false recursive [p1, p2] isDir = MainAction.rejectMixed
    ∧ exitCode (mainLogic false recursive [p1, p2] isDir) = 1
    ∧ performsComparison (mainLogic false recursive [p1, p2] isDir) = false
    ∧ messageOf (mainLogic false recursive [p1, p2] isDir) =
        some "Cannot compare between a file and a directory." := by
  have h1 : mainLogic false recursive [p1, p2] isDir = MainAction.rejectMixed := by
    unfold mainLogic
    rw [if_neg (by simp)]
    cases hd1 : isDir p1 <;> cases hd2 : isDir p2 <;> simp_all
  exact ⟨h1, by rw [h1]; rfl, by rw [h1]; rfl, by rw [h1]; rfl⟩

/-- Witness for `mainLogic_mixed` at a concrete invocation: path `f` is a
file and path `d` is a directory. -/
theorem mainLogic_mixed_witness :
    mainLogic false false ["f", "d"] (fun s => decide (s = "d")) = MainAction.rejectMixed
    ∧ exitCode (mainLogic false false ["f", "d"] (fun s => decide (s = "d"))) = 1
    ∧ performsComparison (mainLogic false false ["f", "d"] (fun s => decide (s = "d"))) = false
    ∧ messageOf (mainLogic false false ["f", "d"] (fun s => decide (s = "d"))) =
        some "Cannot compare between a file and a directory." :=
  mainLogic_mixed false "f" "d" (fun s => decide (s = "d")) (by decide)

end Diff
